import Mathlib

/-!
Verification of the `maybe` package (src/maybe/maybe.go) of phomola/gomisc.

The Go code is shallowly embedded: the generic struct `Maybe[T]` becomes a
Lean structure, Go's zero value of a type is `default` of an `Inhabited`
instance, the Go `error` interface is `Option String` (with `none` playing
the nil error), Go's `interface{}` values appear either as `Option T`
(type-erased read: `none` is the nil interface) or as the closed dynamic
universe `Dyn` (type-erased write, where the runtime type matters), and the
host facilities the package delegates to (`encoding/json`, `sql.Null[T].Scan`)
are explicit parameters.
-/

set_option autoImplicit false

namespace GoMisc
namespace maybe

/-- Go: `type Maybe[T any] struct { Val T; Valid bool }`. -/
structure Maybe (T : Type) where
  Val : T
  Valid : Bool
deriving DecidableEq, Repr

/-- The Go zero value of `Maybe[T]` is `{zero-of-T, false}`. -/
instance {T : Type} [Inhabited T] : Inhabited (Maybe T) := ⟨⟨default, false⟩⟩

/-- Go: `func Identity[T any](x T) T { return x }`. -/
def Identity {T : Type} (x : T) : T := x

/-- Go: `func Unit[T any](x T) Maybe[T] { return Maybe[T]{Val: x, Valid: true} }`. -/
def Unit {T : Type} (x : T) : Maybe T := ⟨x, true⟩

/-- Go: `func Nothing[T any]() Maybe[T] { return Maybe[T]{} }` (the zero value). -/
def Nothing {T : Type} [Inhabited T] : Maybe T := ⟨default, false⟩

/-- Go: `func New[T any](x *T) Maybe[T]`; the nullable pointer argument is an
`Option T` (`none` is the nil pointer, `some` carries the pointee). -/
def New {T : Type} [Inhabited T] : Option T → Maybe T
  | none => Nothing
  | some x => Unit x

/-- Go: `func (m Maybe[T]) GetOr(defVal T) T`. -/
def Maybe.GetOr {T : Type} (m : Maybe T) (defVal : T) : T :=
  if m.Valid then m.Val else defVal

/-- Go: `func (m Maybe[T]) GetOrZero() T`. -/
def Maybe.GetOrZero {T : Type} [Inhabited T] (m : Maybe T) : T :=
  if m.Valid then m.Val else default

/-- Go: `func (m *Maybe[T]) Get() (interface{}, bool)`; it returns
`m.Val, true` when valid and the nil interface (`nil, false`) otherwise.
The returned `interface{}` is `Option T`: `some v` is an interface boxing
`v`, `none` is the nil interface (in Go, `nil != any(zeroOfT)`). -/
def Maybe.Get {T : Type} (m : Maybe T) : Option T × Bool :=
  if m.Valid then (some m.Val, true) else (none, false)

/-- Go: `func Fmap[T, U any](f func(T) U, x Maybe[T]) Maybe[U]`.
The empty branch returns the zero value `Maybe[U]{}`, whose payload slot is
the zero of `U`. -/
def Fmap {T U : Type} [Inhabited U] (f : T → U) (x : Maybe T) : Maybe U :=
  if !x.Valid then ⟨default, false⟩
  else ⟨f x.Val, true⟩

/-- Go: `func FallibleFmap[T, U any](f func(T) (U, error), x Maybe[T]) (Maybe[U], error)`.
`f` returns a value and an error (`Option String`, `none` = nil). -/
def FallibleFmap {T U : Type} [Inhabited U] (f : T → U × Option String) (x : Maybe T) :
    Maybe U × Option String :=
  if !x.Valid then (⟨default, false⟩, none)
  else
    let r := f x.Val
    match r.2 with
    | some e => (⟨default, false⟩, some e)
    | none => (⟨r.1, true⟩, none)

/-- Go: `func Bind[T, U any](f func(T) Maybe[U], x Maybe[T]) Maybe[U]`. -/
def Bind {T U : Type} [Inhabited U] (f : T → Maybe U) (x : Maybe T) : Maybe U :=
  if !x.Valid then ⟨default, false⟩
  else f x.Val

/-- Go: `func Join[T any](x Maybe[Maybe[T]]) Maybe[T] { return Bind(Identity[Maybe[T]], x) }`. -/
def Join {T : Type} [Inhabited T] (x : Maybe (Maybe T)) : Maybe T :=
  Bind Identity x

/-- A dynamic (`interface{}`-typed) Go value over a closed universe of
payload types, carrying its runtime type as the constructor tag. -/
inductive Dyn where
  | dInt : Int → Dyn
  | dStr : String → Dyn
  | dBool : Bool → Dyn
deriving DecidableEq, Repr

/-- Go dynamic typing for a payload type `T`: `box` places a `T` into an
interface value; `assert` is the type assertion `x.(T)`, which yields the
value exactly when the runtime type of `x` is `T`. -/
class GoDyn (T : Type) where
  box : T → Dyn
  assert : Dyn → Option T
  assert_box : ∀ v, assert (box v) = some v

instance : GoDyn Int where
  box := .dInt
  assert := fun
    | .dInt n => some n
    | _ => none
  assert_box := fun _ => rfl

instance : GoDyn String where
  box := .dStr
  assert := fun
    | .dStr s => some s
    | _ => none
  assert_box := fun _ => rfl

instance : GoDyn Bool where
  box := .dBool
  assert := fun
    | .dBool b => some b
    | _ => none
  assert_box := fun _ => rfl

/-- Go: `func (m *Maybe[T]) Set(x interface{}) { m.Val = x.(T); m.Valid = true }`.
The type assertion `x.(T)` is unchecked: when the runtime type of `x` is not
`T` it panics, which is modeled as the result `none` (no updated optional and
no error value is produced for the caller). On success the optional holds the
asserted value and is marked present. -/
def Maybe.Set {T : Type} [GoDyn T] (m : Maybe T) (x : Dyn) : Option (Maybe T) :=
  match GoDyn.assert x with
  | some v => some { m with Val := v, Valid := true }
  | none => none

/-- Go: `func (m *Maybe[T]) SetValid() { m.Valid = true }`. -/
def Maybe.SetValid {T : Type} (m : Maybe T) : Maybe T :=
  { m with Valid := true }

/-!
Heap model for the capability bridge.

`MaybeIface` has a value receiver: `func (m Maybe[T]) MaybeIface() Iface
{ return &m }`. The receiver is a copy of the optional the method was called
on, and `&m` makes that copy escape to the heap; the returned interface wraps
a pointer to the copy. We model a heap of `Maybe[T]` cells as a list, with
addresses as indices, and pointers to optionals (and to their payload slots,
which live inside the cells) as addresses.
-/

/-- `m.MaybeIface()` for the optional stored at address `a` of heap `h`:
allocates a fresh cell holding a copy of that optional at the end of the heap
and returns the new heap together with the address of the copy, which is what
the returned `Iface` points at. -/
def maybeIfaceAt {T : Type} [Inhabited T] (h : List (Maybe T)) (a : Nat) :
    List (Maybe T) × Nat :=
  (h ++ [h.getD a default], h.length)

/-- `Iface.Set` performed through a pointer: runs `Maybe.Set` on the cell at
address `p` (`none` propagates the type-assertion panic). -/
def ifaceSetAt {T : Type} [Inhabited T] [GoDyn T] (h : List (Maybe T)) (p : Nat) (x : Dyn) :
    Option (List (Maybe T)) :=
  match (h.getD p default).Set x with
  | some c => some (h.set p c)
  | none => none

/-- `Iface.SetValid` performed through a pointer. -/
def ifaceSetValidAt {T : Type} [Inhabited T] (h : List (Maybe T)) (p : Nat) :
    List (Maybe T) :=
  h.set p (h.getD p default).SetValid

/-- Go: `func (m *Maybe[T]) GetPtr() unsafe.Pointer { return unsafe.Pointer(m.Pointer()) }`,
where `func (m Maybe[T]) Pointer() *T` has a value receiver: `m.Pointer()`
copies the dereferenced receiver struct into a fresh receiver and returns
`&m.Val` of that copy, which escapes. Through a pointer to the cell at
address `p`: when that optional is present, a new cell holding the copy is
allocated at the end of the heap and the returned pointer targets the new
cell's payload slot (identified by the new cell's address); when it is
empty, the nil pointer (`none`) is returned and the heap is unchanged. -/
def ifaceGetPtrAt {T : Type} [Inhabited T] (h : List (Maybe T)) (p : Nat) :
    List (Maybe T) × Option Nat :=
  if (h.getD p default).Valid then (h ++ [h.getD p default], some h.length)
  else (h, none)

/-!
The JSON adapter. The host codec (`encoding/json` applied to the payload
type `T`) is a parameter: `enc` models `json.Marshal` of a payload (total:
the payload types exercised here never fail to encode), and `dec` models
`json.Unmarshal` of a token into a target slot currently holding a given
value, returning the value left in the slot together with the error, if any.
-/
structure Codec (T : Type) where
  enc : T → String
  dec : String → T → T × Option String

/-- Go: `func (m Maybe[T]) MarshalJSON() ([]byte, error)`:
`if !m.Valid { return null, nil }; return json.Marshal(m.Val)`. -/
def Maybe.MarshalJSON {T : Type} (c : Codec T) (m : Maybe T) : String :=
  if !m.Valid then "null"
  else c.enc m.Val

/-- Go: `func (m *Maybe[T]) UnmarshalJSON(val []byte) error`:
`if slices.Equal(val, null) { return nil }` — the null token is a no-op —
`m.Valid = true; return json.Unmarshal(val, &m.Val)`. Returns the updated
optional together with the error. -/
def Maybe.UnmarshalJSON {T : Type} (c : Codec T) (m : Maybe T) (val : String) :
    Maybe T × Option String :=
  if val = "null" then (m, none)
  else
    let r := c.dec val m.Val
    (⟨r.1, true⟩, r.2)

/-- A host codec for an `Option Bool` payload, modeling Go's `encoding/json`
on a `*bool` payload type: the nil pointer (`none`) encodes to the JSON null
token, exactly as `encoding/json` encodes a nil pointer; any unknown token is
rejected, leaving the target slot unchanged. -/
def optBoolCodec : Codec (Option Bool) where
  enc := fun
    | none => "null"
    | some true => "true"
    | some false => "false"
  dec := fun s v =>
    if s = "null" then (none, none)
    else if s = "true" then (some true, none)
    else if s = "false" then (some false, none)
    else (v, some "invalid JSON value")

/-!
The database adapter.
-/

/-- Go standard library: `type Null[T any] struct { V T; Valid bool }`. -/
structure SqlNull (T : Type) where
  V : T
  Valid : Bool
deriving DecidableEq, Repr

/-- Go: `func (m *Maybe[T]) Scan(val any) error`:
`var v sql.Null[T]; if err := v.Scan(val); err != nil { return err };
m.Valid = v.Valid; m.Val = v.V; return nil`. The standard library primitive
`sql.Null[T].Scan` (starting from the zero `sql.Null[T]`) is the parameter
`scanPrim`; the updated optional is returned together with the error. -/
def Maybe.Scan {T A : Type} (scanPrim : A → Except String (SqlNull T)) (m : Maybe T) (val : A) :
    Maybe T × Option String :=
  match scanPrim val with
  | .error e => (m, some e)
  | .ok v => (⟨v.V, v.Valid⟩, none)

/-- The payload universe for the outbound database conversion `Maybe.Value`,
as inspected by its type switch: the constructor tag is the payload's Go
type. Signed integer types carry their mathematical value as an `Int` and
unsigned ones as a `Nat`; the width invariants of the narrow types (for
example, a `vUint8` payload is below `2 ^ 8`) are stated as hypotheses of the
theorems where they matter. A `float32` payload carries its exact IEEE
binary32 value as a rational (every binary32 value is one). A string payload
stands in for the types not in the switch, which are passed through. -/
inductive GoVal where
  | vInt : Int → GoVal
  | vInt8 : Int → GoVal
  | vInt16 : Int → GoVal
  | vInt32 : Int → GoVal
  | vUint : Nat → GoVal
  | vUint8 : Nat → GoVal
  | vUint16 : Nat → GoVal
  | vUint32 : Nat → GoVal
  | vUint64 : Nat → GoVal
  | vFloat32 : Rat → GoVal
  | vStr : String → GoVal
deriving DecidableEq, Repr

instance : Inhabited GoVal := ⟨.vInt 0⟩

/-- `driver.Value`: the storage primitives produced by `Maybe.Value`. The
64-bit float also carries its exact value as a rational (the conversion
`float64(v)` from a `float32` is exact, IEEE binary32 being a subset of
binary64). `passthrough` is the final `return m.Val, nil` for a payload type
the switch does not convert, and `null` is the nil `driver.Value`. -/
inductive DriverValue where
  | int64 : Int → DriverValue
  | float64 : Rat → DriverValue
  | passthrough : GoVal → DriverValue
  | null : DriverValue
deriving DecidableEq, Repr

/-- The Go conversion `int64(v)` for a 64-bit unsigned source value: the
two's-complement reinterpretation, wrapping modulo `2 ^ 64` into the signed
range. -/
def uint64ToInt64 (n : Nat) : Int :=
  let r : Nat := n % 2 ^ 64
  if r < 2 ^ 63 then (r : Int) else (r : Int) - 2 ^ 64

/-- The body of the type switch of `Maybe.Value` for a present payload. The
widening conversions `int64(v)` from the signed types and from the unsigned
types of at most 32 bits are exact on every representable source value, so
they keep the carried value; `uint` and `uint64` go through the wrapping
64-bit reinterpretation. -/
def goValToDriver : GoVal → DriverValue
  | .vInt n => .int64 n
  | .vInt8 n => .int64 n
  | .vInt16 n => .int64 n
  | .vInt32 n => .int64 n
  | .vUint n => .int64 (uint64ToInt64 n)
  | .vUint8 n => .int64 (n : Int)
  | .vUint16 n => .int64 (n : Int)
  | .vUint32 n => .int64 (n : Int)
  | .vUint64 n => .int64 (uint64ToInt64 n)
  | .vFloat32 q => .float64 q
  | .vStr s => .passthrough (.vStr s)

/-- Go: `func (m Maybe[T]) Value() (driver.Value, error)`:
`if !m.Valid { return nil, nil }`, then the type switch over the payload
(the `driver.Valuer` delegation case is not taken by any payload of this
universe). No branch returns a non-nil error. -/
def Maybe.Value (m : Maybe GoVal) : DriverValue × Option String :=
  if !m.Valid then (.null, none)
  else (goValToDriver m.Val, none)

/-!
Theorems. Each claim of the specification is settled below.
-/

/-- C7, counterexample: the functor identity law fails under Go struct
equality on an empty optional whose residual payload slot is not the zero
value (such a value is constructible, both fields being exported): `Fmap`
rebuilds the empty result as the zero struct `Maybe[U]\x7b\x7d`, discarding
the residual payload `7`. -/
theorem fmap_identity_counterexample :
    Fmap Identity (⟨7, false⟩ : Maybe Int) ≠ ⟨7, false⟩ := by
  decide

/-- C7, amended: the functor identity law holds for every present optional
and for the canonical empty value (zero payload), and the composition law
holds for every optional; `Fmap` sends any empty input to the canonical
empty output and `Unit x` to `Unit (f x)`. -/
theorem fmap_laws {T U V : Type} [Inhabited T] [Inhabited U] [Inhabited V] :
    (∀ m : Maybe T, m.Valid = true → Fmap Identity m = m) ∧
    (Fmap Identity (Nothing : Maybe T) = Nothing) ∧
    (∀ (f : U → V) (g : T → U) (m : Maybe T), Fmap (f ∘ g) m = Fmap f (Fmap g m)) ∧
    (∀ (f : T → U) (m : Maybe T), m.Valid = false → Fmap f m = Nothing) ∧
    (∀ (f : T → U) (x : T), Fmap f (Unit x) = Unit (f x)) := by
  refine ⟨?_, ?_, ?_, ?_, ?_⟩
  · intro m hm
    cases m
    simp_all [Fmap, Identity]
  · simp [Fmap, Nothing]
  · intro f g m
    by_cases hm : m.Valid <;> simp [Fmap, hm, Function.comp]
  · intro f m hm
    simp [Fmap, hm, Nothing]
  · intro f x
    simp [Fmap, Unit]

/-- Witness for the hypotheses of `fmap_laws`, at `T = U = V = Int`,
`m = Unit 3`. -/
theorem fmap_laws_witness :
    Fmap Identity (Unit (3 : Int)) = Unit 3 ∧
    Fmap Identity (Nothing : Maybe Int) = Nothing ∧
    Fmap ((fun n : Int => n + 1) ∘ (fun n : Int => n * 2)) (Unit (3 : Int)) =
      Fmap (fun n : Int => n + 1) (Fmap (fun n : Int => n * 2) (Unit (3 : Int))) ∧
    Fmap (fun n : Int => n + 1) (Nothing : Maybe Int) = Nothing :=
  ⟨(@fmap_laws Int Int Int _ _ _).1 _ rfl,
   (@fmap_laws Int Int Int _ _ _).2.1,
   (@fmap_laws Int Int Int _ _ _).2.2.1 _ _ _,
   (@fmap_laws Int Int Int _ _ _).2.2.2.1 _ _ rfl⟩

/-- C5, counterexample: `FallibleFmap` of an always-failing function over an
empty input returns no error (the function is never invoked), refuting the
claim that an error is returned for any prior presence state. -/
theorem falliblefmap_empty_counterexample :
    (FallibleFmap (fun _ : Int => ((0 : Int), some "boom")) (Nothing : Maybe Int)).2 = none := by
  decide

/-- C5, amended: for a function that always returns an error, `FallibleFmap`
always returns the empty optional, and it returns an error exactly when the
input was present (an empty input short-circuits with no error, the function
never being invoked). -/
theorem falliblefmap_failing {T U : Type} [Inhabited U] (f : T → U × Option String)
    (m : Maybe T) (hf : ∀ x, ((f x).2).isSome = true) :
    (FallibleFmap f m).1 = (Nothing : Maybe U) ∧
    (((FallibleFmap f m).2).isSome = true ↔ m.Valid = true) := by
  by_cases hm : m.Valid
  · have hx := hf m.Val
    cases he : (f m.Val).2 with
    | none => rw [he] at hx; simp at hx
    | some e => constructor <;> simp [FallibleFmap, hm, he, Nothing]
  · constructor <;> simp_all [FallibleFmap, Nothing]

/-- Witness for the hypotheses of `falliblefmap_failing`, at a present
input. -/
theorem falliblefmap_failing_witness :
    (FallibleFmap (fun _ : Int => ((0 : Int), some "boom")) (Unit (1 : Int))).1 =
      (Nothing : Maybe Int) ∧
    (((FallibleFmap (fun _ : Int => ((0 : Int), some "boom")) (Unit (1 : Int))).2).isSome = true ↔
      (Unit (1 : Int)).Valid = true) :=
  falliblefmap_failing _ (Unit 1) (fun _ => rfl)

/-- C3, counterexample: `Get` on an empty optional returns the nil interface
(`none` in the model), not an interface boxing the zero value of the payload
type (`some 0` for `Int`); in Go, `nil != any(0)`. -/
theorem get_empty_counterexample :
    Maybe.Get (Nothing : Maybe Int) ≠ (some 0, false) := by
  decide

/-- C3, amended: `Get` on `Unit x` returns the boxed `x` paired with `true`,
and `Get` on any empty optional returns the nil interface paired with
`false` (the optional itself is not affected: `Get` is a pure function of
the value in this embedding). -/
theorem get_spec {T : Type} (m : Maybe T) (x : T) :
    Maybe.Get (Unit x) = (some x, true) ∧
    (m.Valid = false → Maybe.Get m = (none, false)) := by
  constructor
  · simp [Maybe.Get, Unit]
  · intro hm
    simp [Maybe.Get, hm]

/-- Witness for the hypothesis of `get_spec`, at `T = Int`. -/
theorem get_spec_witness :
    Maybe.Get (Unit (5 : Int)) = (some 5, true) ∧
    Maybe.Get (Nothing : Maybe Int) = (none, false) :=
  ⟨(get_spec (Nothing : Maybe Int) 5).1, (get_spec (Nothing : Maybe Int) 5).2 rfl⟩

/-- C2, counterexample: decoding the JSON null token into an optional that
currently holds a value leaves it present (`Valid = true`): the null branch
of `UnmarshalJSON` returns without touching the receiver, refuting the claim
that null-decode unconditionally empties the optional. -/
theorem unmarshal_null_counterexample :
    ¬ ((Maybe.UnmarshalJSON optBoolCodec (Unit (some true)) "null").1.Valid = false) := by
  decide

/-- C2, amended: decoding the JSON null token is a no-op — the optional is
returned exactly as it was, with no error. A freshly constructed (empty)
target therefore stays empty, but a present target stays present. -/
theorem unmarshal_null_noop {T : Type} (c : Codec T) (m : Maybe T) :
    Maybe.UnmarshalJSON c m "null" = (m, none) := by
  simp [Maybe.UnmarshalJSON]

/-- C10: when `UnmarshalJSON` is invoked on a non-null token and the payload
decode fails, the error is returned but the optional has already been marked
present: `Valid = true` is not rolled back on decode failure. -/
theorem unmarshal_error_marks_present {T : Type} (c : Codec T) (m : Maybe T)
    (val : String) (e : String) (hval : val ≠ "null")
    (herr : (c.dec val m.Val).2 = some e) :
    (Maybe.UnmarshalJSON c m val).1.Valid = true ∧
    (Maybe.UnmarshalJSON c m val).2 = some e := by
  constructor <;> simp [Maybe.UnmarshalJSON, hval, herr]

/-- Witness for the hypotheses of `unmarshal_error_marks_present`, at the
`Option Bool` codec and an unparsable token. -/
theorem unmarshal_error_marks_present_witness :
    (Maybe.UnmarshalJSON optBoolCodec (Nothing : Maybe (Option Bool)) "x").1.Valid = true ∧
    (Maybe.UnmarshalJSON optBoolCodec (Nothing : Maybe (Option Bool)) "x").2 =
      some "invalid JSON value" :=
  unmarshal_error_marks_present _ _ _ _ (by decide) (by decide)

/-- C6, counterexample: the `Option Bool` payload (a Go `*bool`) round-trips
through the host codec, yet the optional round-trip fails on `Unit none`
— the present nil pointer encodes to the null token, which decodes to the
empty optional; and it also fails on an empty optional with a residual
non-zero payload, which decodes back to the canonical empty value. -/
theorem json_roundtrip_counterexample :
    (∀ (x t : Option Bool), optBoolCodec.dec (optBoolCodec.enc x) t = (x, none)) ∧
    Maybe.UnmarshalJSON optBoolCodec (Nothing : Maybe (Option Bool))
      (Maybe.MarshalJSON optBoolCodec (Unit none)) ≠ (Unit none, none) ∧
    Maybe.UnmarshalJSON optBoolCodec (Nothing : Maybe (Option Bool))
      (Maybe.MarshalJSON optBoolCodec ⟨some true, false⟩) ≠ (⟨some true, false⟩, none) := by
  decide

/-- C6, amended: decoding into a freshly constructed optional the bytes
produced by encoding `m` yields `m`, provided the payload round-trips
through the host codec, a present payload never encodes to the literal null
token, and an empty `m` carries the zero payload. -/
theorem json_roundtrip {T : Type} [Inhabited T] (c : Codec T) (m : Maybe T)
    (hdec : m.Valid = true → c.dec (c.enc m.Val) default = (m.Val, none))
    (hnn : m.Valid = true → c.enc m.Val ≠ "null")
    (hz : m.Valid = false → m.Val = default) :
    Maybe.UnmarshalJSON c (Nothing : Maybe T) (Maybe.MarshalJSON c m) = (m, none) := by
  by_cases hm : m.Valid = true
  · have h1 := hdec hm
    have h2 := hnn hm
    cases m with
    | mk v b =>
      simp_all [Maybe.MarshalJSON, Maybe.UnmarshalJSON, Nothing]
  · have h3 := hz (by simpa using hm)
    cases m with
    | mk v b =>
      simp_all [Maybe.MarshalJSON, Maybe.UnmarshalJSON, Nothing]

/-- Witness for the hypotheses of `json_roundtrip`, at the `Option Bool`
codec and a present payload. -/
theorem json_roundtrip_witness :
    Maybe.UnmarshalJSON optBoolCodec (Nothing : Maybe (Option Bool))
      (Maybe.MarshalJSON optBoolCodec (Unit (some true))) = (Unit (some true), none) :=
  json_roundtrip optBoolCodec (Unit (some true)) (by decide) (by decide) (by decide)

/-- C9: if the underlying nullable-scan primitive (`sql.Null[T].Scan`) fails,
`Scan` returns that error and both fields of the optional are left exactly
as they were before the call. -/
theorem scan_error_leaves_unchanged {T A : Type} (scanPrim : A → Except String (SqlNull T))
    (m : Maybe T) (val : A) (e : String) (hscan : scanPrim val = .error e) :
    Maybe.Scan scanPrim m val = (m, some e) := by
  simp [Maybe.Scan, hscan]

/-- Witness for the hypothesis of `scan_error_leaves_unchanged`, at a
primitive that rejects its input. -/
theorem scan_error_leaves_unchanged_witness :
    Maybe.Scan (fun _ : Int => (Except.error "scan failure" : Except String (SqlNull Int)))
      (Unit 9) 0 = (Unit 9, some "scan failure") :=
  scan_error_leaves_unchanged _ (Unit 9) 0 "scan failure" rfl

/-- C1, counterexample: `Set` on a `Maybe[int]` with a dynamic string panics
— the unchecked type assertion `x.(T)` aborts before any error can be
reported (`none` is the panic of the model; the `Iface.Set` signature has no
error result at all), refuting the claim of a recoverable, explicitly
reported TypeMismatch failure. -/
theorem set_mismatch_panics :
    Maybe.Set (Nothing : Maybe Int) (Dyn.dStr "a") = none := by
  decide

/-- C1, amended: `Set` with a dynamic value whose runtime type matches the
payload type stores the value and marks the optional present; with a
mismatched runtime type it panics (an unrecoverable crash, modeled `none`),
reporting no error to the caller. -/
theorem set_spec {T : Type} [GoDyn T] (m : Maybe T) (v : T) (y : Dyn)
    (hy : @GoDyn.assert T _ y = none) :
    Maybe.Set m (GoDyn.box v) = some ⟨v, true⟩ ∧ Maybe.Set m y = none := by
  constructor
  · simp [Maybe.Set, GoDyn.assert_box]
  · simp [Maybe.Set, hy]

/-- Witness for the hypothesis of `set_spec`, at `T = Int` with a matching
integer and a mismatched string. -/
theorem set_spec_witness :
    Maybe.Set (Nothing : Maybe Int) (GoDyn.box (9 : Int)) = some ⟨9, true⟩ ∧
    Maybe.Set (Nothing : Maybe Int) (Dyn.dStr "a") = none :=
  set_spec (Nothing : Maybe Int) 9 (Dyn.dStr "a") rfl

/-- C8, counterexample: with the optional (empty) stored at address 0 of a
one-cell heap, the bridge returned by `MaybeIface` points at address 1 — a
fresh copy, the receiver being passed by value — so `Set 5` through the
bridge leaves the cell at address 0 empty: the mutation is not visible when
the optional itself is read. A subsequent `GetPtr` through the bridge goes
through `Pointer`'s value receiver, allocating yet another copy at address 2
and returning a pointer into that copy's payload slot: address 2, not the
optional's own slot at address 0. -/
theorem iface_not_aliasing_counterexample :
    maybeIfaceAt ([⟨0, false⟩] : List (Maybe Int)) 0 = ([⟨0, false⟩, ⟨0, false⟩], 1) ∧
    ifaceSetAt ([⟨0, false⟩, ⟨0, false⟩] : List (Maybe Int)) 1 (Dyn.dInt 5) =
      some [⟨0, false⟩, ⟨5, true⟩] ∧
    (([⟨0, false⟩, ⟨5, true⟩] : List (Maybe Int)).getD 0 default).Valid = false ∧
    ifaceGetPtrAt ([⟨0, false⟩, ⟨5, true⟩] : List (Maybe Int)) 1 =
      ([⟨0, false⟩, ⟨5, true⟩, ⟨5, true⟩], some 2) ∧
    (2 : Nat) ≠ 0 := by
  decide

/-- C8, amended: the bridge returned by `MaybeIface` is a view of a fresh
copy of the optional, not of the optional itself: its address differs from
the optional's, the copy initially holds the same value, and a `Set` through
the bridge rewrites only the copy's cell, leaving the optional (and every
other cell of the heap) unchanged. A pointer then obtained from the bridge
by `GetPtr` targets the payload slot of yet another fresh copy (made by
`Pointer`'s value receiver), at an address that is neither the optional's
nor the bridge copy's. -/
theorem iface_view_of_copy {T : Type} [Inhabited T] [GoDyn T] (h : List (Maybe T)) (a : Nat)
    (x : Dyn) (v : T) (ha : a < h.length) (hx : @GoDyn.assert T _ x = some v) :
    (maybeIfaceAt h a).2 ≠ a ∧
    (maybeIfaceAt h a).1.getD (maybeIfaceAt h a).2 default = h.getD a default ∧
    ifaceSetAt (maybeIfaceAt h a).1 (maybeIfaceAt h a).2 x =
      some (h ++ [(⟨v, true⟩ : Maybe T)]) ∧
    (h ++ [(⟨v, true⟩ : Maybe T)]).getD a default = h.getD a default ∧
    (ifaceGetPtrAt (h ++ [(⟨v, true⟩ : Maybe T)]) (maybeIfaceAt h a).2).2 =
      some (h.length + 1) ∧
    h.length + 1 ≠ a ∧
    h.length + 1 ≠ (maybeIfaceAt h a).2 := by
  have hcopy : (h ++ [h.getD a default])[h.length]? = some (h.getD a default) :=
    List.getElem?_concat_length ..
  have hcopy2 : (h ++ [(⟨v, true⟩ : Maybe T)])[h.length]? = some (⟨v, true⟩ : Maybe T) :=
    List.getElem?_concat_length ..
  refine ⟨?_, ?_, ?_, ?_, ?_, ?_, ?_⟩
  · show h.length ≠ a
    omega
  · simp [maybeIfaceAt, hcopy]
  · simp [maybeIfaceAt, ifaceSetAt, Maybe.Set, hcopy, hx,
      List.set_append_right _ _ (Nat.le_refl _), Nat.sub_self]
  · simp [List.getD_eq_getElem?_getD, List.getElem?_append_left ha]
  · simp [maybeIfaceAt, ifaceGetPtrAt, List.getD_eq_getElem?_getD, hcopy2]
  · omega
  · show h.length + 1 ≠ h.length
    omega

/-- Witness for the hypotheses of `iface_view_of_copy`, on a one-cell heap
holding an empty `Maybe[int]`. -/
theorem iface_view_of_copy_witness :
    (maybeIfaceAt ([⟨0, false⟩] : List (Maybe Int)) 0).2 ≠ 0 ∧
    (maybeIfaceAt ([⟨0, false⟩] : List (Maybe Int)) 0).1.getD
      (maybeIfaceAt ([⟨0, false⟩] : List (Maybe Int)) 0).2 default =
      ([⟨0, false⟩] : List (Maybe Int)).getD 0 default ∧
    ifaceSetAt (maybeIfaceAt ([⟨0, false⟩] : List (Maybe Int)) 0).1
      (maybeIfaceAt ([⟨0, false⟩] : List (Maybe Int)) 0).2 (Dyn.dInt 5) =
      some (([⟨0, false⟩] : List (Maybe Int)) ++ [(⟨5, true⟩ : Maybe Int)]) ∧
    (([⟨0, false⟩] : List (Maybe Int)) ++ [(⟨5, true⟩ : Maybe Int)]).getD 0 default =
      ([⟨0, false⟩] : List (Maybe Int)).getD 0 default ∧
    (ifaceGetPtrAt (([⟨0, false⟩] : List (Maybe Int)) ++ [(⟨5, true⟩ : Maybe Int)])
      (maybeIfaceAt ([⟨0, false⟩] : List (Maybe Int)) 0).2).2 = some 2 ∧
    (2 : Nat) ≠ 0 ∧
    (2 : Nat) ≠ (maybeIfaceAt ([⟨0, false⟩] : List (Maybe Int)) 0).2 :=
  iface_view_of_copy _ 0 (Dyn.dInt 5) 5 (by decide) rfl

/-- C4, counterexample: a present `uint64` payload of `2 ^ 64 - 1` converts
to the `int64` value `-1` (the unchecked Go conversion `int64(v)` wraps),
which is not equal to the original value, refuting the claim that every
integer payload maps to an equal signed 64-bit integer. -/
theorem value_uint64_counterexample :
    Maybe.Value (Unit (GoVal.vUint64 (2 ^ 64 - 1))) = (DriverValue.int64 (-1), none) ∧
    ((2 ^ 64 - 1 : Nat) : Int) ≠ -1 := by
  decide

/-- C4, amended: an empty optional maps to the storage no-value marker with
no error; a present payload of any signed integer type, or of an unsigned
type of at most 32 bits, or of `uint`/`uint64` below `2 ^ 63`, maps to an
`int64` equal to the original value; a `uint` or `uint64` payload of at
least `2 ^ 63` wraps to its two's-complement reinterpretation (the value
minus `2 ^ 64`); a `float32` payload maps to the numerically equal
`float64`. -/
theorem value_spec :
    (∀ m : Maybe GoVal, m.Valid = false → Maybe.Value m = (DriverValue.null, none)) ∧
    (∀ n : Int, -(2 ^ 63) ≤ n → n < 2 ^ 63 →
      Maybe.Value (Unit (GoVal.vInt n)) = (DriverValue.int64 n, none)) ∧
    (∀ n : Int, -(2 ^ 7) ≤ n → n < 2 ^ 7 →
      Maybe.Value (Unit (GoVal.vInt8 n)) = (DriverValue.int64 n, none)) ∧
    (∀ n : Int, -(2 ^ 15) ≤ n → n < 2 ^ 15 →
      Maybe.Value (Unit (GoVal.vInt16 n)) = (DriverValue.int64 n, none)) ∧
    (∀ n : Int, -(2 ^ 31) ≤ n → n < 2 ^ 31 →
      Maybe.Value (Unit (GoVal.vInt32 n)) = (DriverValue.int64 n, none)) ∧
    (∀ n : Nat, n < 2 ^ 8 →
      Maybe.Value (Unit (GoVal.vUint8 n)) = (DriverValue.int64 (n : Int), none)) ∧
    (∀ n : Nat, n < 2 ^ 16 →
      Maybe.Value (Unit (GoVal.vUint16 n)) = (DriverValue.int64 (n : Int), none)) ∧
    (∀ n : Nat, n < 2 ^ 32 →
      Maybe.Value (Unit (GoVal.vUint32 n)) = (DriverValue.int64 (n : Int), none)) ∧
    (∀ n : Nat, n < 2 ^ 63 →
      Maybe.Value (Unit (GoVal.vUint n)) = (DriverValue.int64 (n : Int), none) ∧
      Maybe.Value (Unit (GoVal.vUint64 n)) = (DriverValue.int64 (n : Int), none)) ∧
    (∀ n : Nat, 2 ^ 63 ≤ n → n < 2 ^ 64 →
      Maybe.Value (Unit (GoVal.vUint n)) =
        (DriverValue.int64 ((n : Int) - 2 ^ 64), none) ∧
      Maybe.Value (Unit (GoVal.vUint64 n)) =
        (DriverValue.int64 ((n : Int) - 2 ^ 64), none)) ∧
    (∀ q : Rat, Maybe.Value (Unit (GoVal.vFloat32 q)) = (DriverValue.float64 q, none)) := by
  refine ⟨?_, ?_, ?_, ?_, ?_, ?_, ?_, ?_, ?_, ?_, ?_⟩
  · intro m hm
    simp [Maybe.Value, hm]
  · intro n _ _
    rfl
  · intro n _ _
    rfl
  · intro n _ _
    rfl
  · intro n _ _
    rfl
  · intro n _
    rfl
  · intro n _
    rfl
  · intro n _
    rfl
  · intro n hn
    constructor <;>
      · simp [Maybe.Value, Unit, goValToDriver, uint64ToInt64]
        split <;> omega
  · intro n h1 h2
    constructor <;>
      · simp [Maybe.Value, Unit, goValToDriver, uint64ToInt64]
        split <;> omega
  · intro q
    rfl

/-- Witness for the hypotheses of `value_spec`, at concrete payloads of the
main kinds (including a wrapping `uint64` of `2 ^ 63`). -/
theorem value_spec_witness :
    Maybe.Value (Nothing : Maybe GoVal) = (DriverValue.null, none) ∧
    Maybe.Value (Unit (GoVal.vInt8 (-5))) = (DriverValue.int64 (-5), none) ∧
    Maybe.Value (Unit (GoVal.vUint8 7)) = (DriverValue.int64 ((7 : Nat) : Int), none) ∧
    Maybe.Value (Unit (GoVal.vUint64 3)) = (DriverValue.int64 ((3 : Nat) : Int), none) ∧
    Maybe.Value (Unit (GoVal.vUint64 (2 ^ 63))) =
      (DriverValue.int64 (((2 ^ 63 : Nat) : Int) - 2 ^ 64), none) ∧
    Maybe.Value (Unit (GoVal.vFloat32 (3 / 2))) = (DriverValue.float64 (3 / 2), none) :=
  ⟨value_spec.1 _ rfl,
   value_spec.2.2.1 (-5) (by norm_num) (by norm_num),
   value_spec.2.2.2.2.2.1 7 (by norm_num),
   (value_spec.2.2.2.2.2.2.2.2.1 3 (by norm_num)).2,
   (value_spec.2.2.2.2.2.2.2.2.2.1 (2 ^ 63) (by norm_num) (by norm_num)).2,
   value_spec.2.2.2.2.2.2.2.2.2.2 (3 / 2)⟩

end maybe
end GoMisc
